import Mathlib

/-!
Verification of the batch job lifecycle manager and result reconciliation
engine of the agri data generation repository.

The development shallowly embeds the three source files:

* agri_data_gen/core/knowledge/validate_bundles.py   (class BatchValidator)
* agri_data_gen/gemini_batch_processing/create_job.py (class TextBatchJob)
* agri_data_gen/cli/main.py                          (CLI glue, not modelled)

Python JSON values are modelled by the inductive type Json (floats are not
modelled; they do not occur in the claims).  File input is modelled as a
list of InputLine values, each carrying the raw line text together with the
result of json.loads on it (none when json.loads raises JSONDecodeError).
Raw provider result lines are modelled by ResultLine: the try block in
BatchValidator.parse_and_split either raises somewhere (constructor
malformed, covering an unparseable line, missing nested fields, and a
non dict inner payload) or produces the items of the chunk decision dict
(constructor ok; json.loads only ever produces string keys, so the
str(k) normalisation in the source is the identity on them).
-/

namespace AgriBatch

/-- Model of a Python value produced by json.loads (floats omitted:
the decision payloads and ids appearing in this pipeline are ints,
bools, strings, nulls, lists and dicts). -/
inductive Json where
  | null : Json
  | bool (b : Bool) : Json
  | int (n : Int) : Json
  | str (s : String) : Json
  | arr (elems : List Json) : Json
  | obj (fields : List (String × Json)) : Json

/-- Python str() on the atomic values this pipeline manipulates.
Lists and dicts never appear as record ids or decision keys in this
data model, so their rendering is irrelevant to every claim; a
placeholder is used for them. -/
def pyStr : Json → String
  | .null => "None"
  | .bool true => "True"
  | .bool false => "False"
  | .int n => toString n
  | .str s => s
  | .arr _ => "<list>"
  | .obj _ => "<dict>"

/-- Python equality test v == 1 as it appears in
parse_and_split (is_valid == 1).  In Python, True == 1 holds, so a
boolean true verdict also passes the test; 0, strings, None, lists
and dicts do not. -/
def pyEqOne : Json → Bool
  | .int n => n == 1
  | .bool b => b
  | _ => false

/-- Lookup in a parsed JSON object (Python dict indexing on string keys;
keys produced by json.loads are unique, first match). -/
def lookupField : List (String × Json) → String → Option Json
  | [], _ => none
  | (k, v) :: rest, q => if k = q then some v else lookupField rest q

/-- bundle[k] for a dict; none both for a missing key (KeyError) and for a
non dict value (TypeError): the callers treat either as a raised error. -/
def Json.get? : Json → String → Option Json
  | .obj fields, k => lookupField fields k
  | _, _ => none

/-- Python dict assignment d[k] = v: replace the value in place when the
key is present, append the pair otherwise. -/
def setFields (fields : List (String × Json)) (k : String) (v : Json) :
    List (String × Json) :=
  if (lookupField fields k).isSome then
    fields.map (fun p => if p.1 = k then (k, v) else p)
  else fields ++ [(k, v)]

/-- bundle[k] = v on a parsed JSON object. -/
def Json.setField : Json → String → Json → Json
  | .obj fields, k, v => .obj (setFields fields k v)
  | j, _, _ => j

/-- One line of a newline delimited JSON input file: the raw text plus
the result of json.loads on it (none when json.loads raises). -/
structure InputLine where
  raw : String
  parsed : Option Json

/-- One line of the raw provider result artifact, as consumed by the try
block of BatchValidator.parse_and_split.  malformed: some step of
json.loads / nested field access / inner json.loads / .items() raised.
ok items: the (string key, verdict) items of the chunk decision dict. -/
inductive ResultLine where
  | malformed : ResultLine
  | ok (items : List (String × Json)) : ResultLine

/-- The items contributed by one result line (a malformed line
contributes nothing: the except branch only logs). -/
def okItems : ResultLine → List (String × Json)
  | .malformed => []
  | .ok items => items

/-- The decision mapping built by the parse phase
(validation_map in the source). -/
def ValidationMap : Type := String → Option Json

/-- validation_map[str(k)] = v for a single item. -/
def insertItem (m : ValidationMap) (kv : String × Json) : ValidationMap :=
  fun q => if q = kv.1 then some kv.2 else m q

/-- Processing of one raw result line: insert every item of the chunk
decision dict; a malformed line leaves the map unchanged. -/
def processLine (m : ValidationMap) (rl : ResultLine) : ValidationMap :=
  (okItems rl).foldl insertItem m

/-- The parse phase of BatchValidator.parse_and_split: fold all raw
result lines into validation_map, starting from the empty dict. -/
def buildValidationMap (lines : List ResultLine) : ValidationMap :=
  lines.foldl processLine (fun _ => none)

/-- All items contributed by a list of result lines, in insertion order. -/
def allItems (lines : List ResultLine) : List (String × Json) :=
  (lines.map okItems).flatten

/-- Last write wins lookup over a flat item list (Python dict semantics
for repeated keys). -/
def lastWins (items : List (String × Json)) (q : String) : Option Json :=
  (items.reverse.find? (fun kv => kv.1 == q)).map (fun kv => kv.2)

/-- Result of the merge phase of parse_and_split: the lines written to
valid_output (verbatim raw lines), the bundles written to
invalid_output (with validation_status set), and the two counters. -/
structure MergeResult where
  valid : List String
  invalid : List Json
  valid_cnt : Nat
  invalid_cnt : Nat

/-- One iteration of the merge loop of parse_and_split:
bundle = json.loads(line); b_id = str(bundle[id]);
is_valid = validation_map.get(b_id, 0);
accept when is_valid == 1, else tag and reject.
A line that fails json.loads, a non dict bundle, and a bundle without
an id key all raise out of the loop (there is no try here). -/
def mergeStep (vmap : ValidationMap) (acc : MergeResult) (l : InputLine) :
    Except String MergeResult :=
  match l.parsed with
  | none => .error "json.loads raised JSONDecodeError"
  | some bundle =>
    match bundle.get? "id" with
    | none => .error "KeyError: id"
    | some idv =>
      let b_id := pyStr idv
      let is_valid := (vmap b_id).getD (.int 0)
      if pyEqOne is_valid then
        .ok { acc with valid := acc.valid ++ [l.raw],
                       valid_cnt := acc.valid_cnt + 1 }
      else
        let tag : String :=
          if (vmap b_id).isNone then "LLM_MISSED" else "LLM_REJECTED"
        .ok { acc with
                invalid := acc.invalid ++
                  [bundle.setField "validation_status" (.str tag)],
                invalid_cnt := acc.invalid_cnt + 1 }

/-- The merge loop of parse_and_split over the original input file. -/
def mergeLoop (vmap : ValidationMap) :
    List InputLine → MergeResult → Except String MergeResult
  | [], acc => .ok acc
  | l :: ls, acc =>
    match mergeStep vmap acc l with
    | .error e => .error e
    | .ok acc2 => mergeLoop vmap ls acc2

/-- BatchValidator.parse_and_split: parse phase then merge phase. -/
def parse_and_split (rlines : List ResultLine) (lines : List InputLine) :
    Except String MergeResult :=
  mergeLoop (buildValidationMap rlines) lines ⟨[], [], 0, 0⟩

/-- str(bundle[id]) of the record carried by an input line (junk value
when the line is not well formed; only used under that hypothesis). -/
def lineIdStr (l : InputLine) : String :=
  pyStr ((l.parsed.bind (fun b => b.get? "id")).getD .null)

/-- A merge phase input line is well formed when it parses and the
parsed bundle has an id field (otherwise the loop raises). -/
def mergeWF (l : InputLine) : Bool :=
  (l.parsed.bind (fun b => b.get? "id")).isSome

/-- Whether the merge phase routes a record to the accepted stream:
validation_map.get(str(bundle[id]), 0) == 1. -/
def accepts (vmap : ValidationMap) (l : InputLine) : Bool :=
  pyEqOne ((vmap (lineIdStr l)).getD (.int 0))

/-- The tag written on a rejected record. -/
def rejTag (vmap : ValidationMap) (l : InputLine) : String :=
  if (vmap (lineIdStr l)).isNone then "LLM_MISSED" else "LLM_REJECTED"

/-- The object written to the rejected stream for an input line. -/
def taggedBundle (vmap : ValidationMap) (l : InputLine) : Json :=
  (l.parsed.getD .null).setField "validation_status" (.str (rejTag vmap l))

/-!
TextBatchJob.create_jsonl: the one request per record builder.
-/

/-- One entry written to the batch request file by create_jsonl.
custom_id = bundle.get(bundle_id, req_<line index>); the request body
wraps the prompt built from the whole bundle, which is not relevant to
any claim and is represented by the bundle itself. -/
structure RequestEntry where
  custom_id : Json
  bundle : Json

/-- custom_id derivation of create_jsonl:
bundle.get(bundle_id, f req_{index}).  Python dict.get returns the
stored value whenever the key is present (even when it is null) and the
fallback string only when the key is absent. -/
def derive_custom_id (fields : List (String × Json)) (index : Nat) : Json :=
  (lookupField fields "bundle_id").getD (.str ("req_" ++ toString index))

/-- The loop body of TextBatchJob.create_jsonl over the enumerated input
lines.  A line on which json.loads raises JSONDecodeError is logged and
skipped (the except branch); a line that parses to a JSON object yields
one request entry and increments the counter; a line that parses to a
non object raises AttributeError at bundle.get, which the except clause
does not catch. -/
def create_jsonl_from : List InputLine → Nat →
    Except String (List RequestEntry × Nat)
  | [], _ => .ok ([], 0)
  | l :: ls, index =>
    match l.parsed with
    | none => create_jsonl_from ls (index + 1)
    | some (.obj fields) =>
      match create_jsonl_from ls (index + 1) with
      | .error e => .error e
      | .ok (es, n) =>
        .ok (⟨derive_custom_id fields index, .obj fields⟩ :: es, n + 1)
    | some _ => .error "AttributeError: get"

/-- TextBatchJob.create_jsonl: one request entry per well formed input
line, plus the reported request_count. -/
def create_jsonl (lines : List InputLine) :
    Except String (List RequestEntry × Nat) :=
  create_jsonl_from lines 0

/-- Whether an input line parses to a JSON object. -/
def isObjLine (l : InputLine) : Bool :=
  match l.parsed with
  | some (.obj _) => true
  | _ => false

/-- Lines on which create_jsonl does not raise: either json.loads raises
(the caught branch) or the line parses to a JSON object. -/
def objOrSkip (l : InputLine) : Bool :=
  match l.parsed with
  | none => true
  | some (.obj _) => true
  | some _ => false

/-- The (line index, parsed object fields) pairs of the well formed lines
of the input stream, starting enumeration at a given index. -/
def goodLines : List InputLine → Nat → List (Nat × List (String × Json))
  | [], _ => []
  | l :: ls, index =>
    match l.parsed with
    | some (.obj fields) => (index, fields) :: goodLines ls (index + 1)
    | _ => goodLines ls (index + 1)

/-!
BatchValidator.create_batch_file: the chunked builder.
-/

/-- One element of the prompt_data list built for a chunk: the record id
and the token saving text line rendered from the bundle fields. -/
structure PromptItem where
  id : Json
  text : String

/-- b[k] as an Except: KeyError / TypeError when the access fails
(create_batch_file has no try around the bundle field accesses). -/
def getField (b : Json) (k : String) : Except String Json :=
  match b.get? k with
  | some v => .ok v
  | none => .error "KeyError"

/-- The prompt_data element built for one bundle by create_batch_file:
id plus the f string
Crop: {lab} ({cid}), Stage: {gs}, Weather: {wl} ({wid}), Stress: {sl} ({sid}).
Any missing field raises out of the whole pass. -/
def bundle_prompt_item (b : Json) : Except String PromptItem :=
  match getField b "id" with
  | .error e => .error e
  | .ok idv =>
  match getField b "crop" with
  | .error e => .error e
  | .ok crop =>
  match getField crop "label" with
  | .error e => .error e
  | .ok cropLabel =>
  match getField crop "id" with
  | .error e => .error e
  | .ok cropId =>
  match getField b "growth_stage" with
  | .error e => .error e
  | .ok gs =>
  match getField gs "label" with
  | .error e => .error e
  | .ok gsLabel =>
  match getField b "weather" with
  | .error e => .error e
  | .ok w =>
  match getField w "label" with
  | .error e => .error e
  | .ok wLabel =>
  match getField w "id" with
  | .error e => .error e
  | .ok wId =>
  match getField b "stress" with
  | .error e => .error e
  | .ok st =>
  match getField st "label" with
  | .error e => .error e
  | .ok stLabel =>
  match getField st "id" with
  | .error e => .error e
  | .ok stId =>
  .ok ⟨idv,
    "Crop: " ++ pyStr cropLabel ++ " (" ++ pyStr cropId ++ "), Stage: " ++
    pyStr gsLabel ++ ", Weather: " ++ pyStr wLabel ++ " (" ++ pyStr wId ++
    "), Stress: " ++ pyStr stLabel ++ " (" ++ pyStr stId ++ ")"⟩

/-- Whether all bundle fields read during prompt construction are
present (so that bundle_prompt_item succeeds). -/
def bundleFieldsOK (b : Json) : Bool :=
  (b.get? "id").isSome &&
  ((b.get? "crop").bind (fun c => c.get? "label")).isSome &&
  ((b.get? "crop").bind (fun c => c.get? "id")).isSome &&
  ((b.get? "growth_stage").bind (fun c => c.get? "label")).isSome &&
  ((b.get? "weather").bind (fun c => c.get? "label")).isSome &&
  ((b.get? "weather").bind (fun c => c.get? "id")).isSome &&
  ((b.get? "stress").bind (fun c => c.get? "label")).isSome &&
  ((b.get? "stress").bind (fun c => c.get? "id")).isSome

/-- Total companion of bundle_prompt_item, equal to it on bundles whose
fields are all present. -/
def prompt_item_of (b : Json) : PromptItem :=
  ⟨(b.get? "id").getD .null,
    "Crop: " ++ pyStr (((b.get? "crop").bind (fun c => c.get? "label")).getD .null) ++
    " (" ++ pyStr (((b.get? "crop").bind (fun c => c.get? "id")).getD .null) ++
    "), Stage: " ++ pyStr (((b.get? "growth_stage").bind (fun c => c.get? "label")).getD .null) ++
    ", Weather: " ++ pyStr (((b.get? "weather").bind (fun c => c.get? "label")).getD .null) ++
    " (" ++ pyStr (((b.get? "weather").bind (fun c => c.get? "id")).getD .null) ++
    "), Stress: " ++ pyStr (((b.get? "stress").bind (fun c => c.get? "label")).getD .null) ++
    " (" ++ pyStr (((b.get? "stress").bind (fun c => c.get? "id")).getD .null) ++ ")"⟩

/-- mapM of bundle_prompt_item over a chunk (the prompt_data loop). -/
def promptItems : List Json → Except String (List PromptItem)
  | [] => .ok []
  | b :: bs =>
    match bundle_prompt_item b with
    | .error e => .error e
    | .ok item =>
      match promptItems bs with
      | .error e => .error e
      | .ok items => .ok (item :: items)

/-- One request entry written by create_batch_file: the chunk tracking
custom_id chunk_<start index> and the prompt_data the combined prompt
serialises. -/
structure ChunkEntry where
  custom_id : String
  items : List PromptItem

/-- The chunking loop of create_batch_file:
for i in range(0, len(all_bundles), chunk_size): chunk = all_bundles[i:i+chunk_size].
cpred is chunk_size - 1, so that the recursion consumes at least one
bundle per step. -/
def chunk_entries (cpred : Nat) : List Json → Nat → Except String (List ChunkEntry)
  | [], _ => .ok []
  | b :: bs, i =>
    match promptItems (b :: bs.take cpred) with
    | .error e => .error e
    | .ok items =>
      match chunk_entries cpred (bs.drop cpred) (i + cpred + 1) with
      | .error e => .error e
      | .ok rest => .ok (⟨"chunk_" ++ toString i, items⟩ :: rest)
  termination_by bs _ => bs.length
  decreasing_by simp +arith [List.length_drop]

/-- Total companion of chunk_entries on field complete bundles. -/
def chunk_entries_spec (cpred : Nat) : List Json → Nat → List ChunkEntry
  | [], _ => []
  | b :: bs, i =>
    ⟨"chunk_" ++ toString i, (b :: bs.take cpred).map prompt_item_of⟩ ::
      chunk_entries_spec cpred (bs.drop cpred) (i + cpred + 1)
  termination_by bs _ => bs.length
  decreasing_by simp +arith [List.length_drop]

/-- Python truthiness of line.strip(): a line is blank when every
character is whitespace, so the stripped string is empty and falsy. -/
def isBlankLine (s : String) : Bool :=
  s.toList.all Char.isWhitespace

/-- The input reading loop of create_batch_file: blank lines are
filtered by if line.strip(), every other line goes through json.loads
with no try around it, so an unparseable non blank line raises
JSONDecodeError out of the whole pass. -/
def read_bundles : List InputLine → Except String (List Json)
  | [] => .ok []
  | l :: ls =>
    if isBlankLine l.raw then read_bundles ls
    else
      match l.parsed with
      | none => .error "json.loads raised JSONDecodeError"
      | some b =>
        match read_bundles ls with
        | .error e => .error e
        | .ok bs => .ok (b :: bs)

/-- BatchValidator.create_batch_file: read all bundles, then emit one
request entry per chunk of chunk_size records (Python range with step 0
raises ValueError). -/
def create_batch_file (chunk_size : Nat) (lines : List InputLine) :
    Except String (List ChunkEntry) :=
  if chunk_size = 0 then .error "ValueError: range arg 3 must not be zero"
  else
    match read_bundles lines with
    | .error e => .error e
    | .ok bundles => chunk_entries (chunk_size - 1) bundles 0

/-!
Polling (TextBatchJob.wait_for_completion and the poll loop of
BatchValidator.submit_and_wait) and fetching
(TextBatchJob.download_and_parse_results).

A poll loop is modelled over the sequence of states the provider reports,
one element per status query, in order.
-/

/-- The terminal state test of wait_for_completion:
state in [JOB_STATE_SUCCEEDED, JOB_STATE_FAILED, JOB_STATE_CANCELLED]. -/
def is_terminal_state (s : String) : Bool :=
  s == "JOB_STATE_SUCCEEDED" || s == "JOB_STATE_FAILED" || s == "JOB_STATE_CANCELLED"

/-- TextBatchJob.wait_for_completion: query the state once per
iteration, return the first terminal state observed together with the
number of status queries issued; none when the observed sequence holds
no terminal state (the real loop would keep polling). -/
def wait_for_completion : List String → Option (String × Nat)
  | [] => none
  | s :: rest =>
    if is_terminal_state s then some (s, 1)
    else (wait_for_completion rest).map (fun p => (p.1, p.2 + 1))

/-- The poll loop of BatchValidator.submit_and_wait: break and proceed
to the result download on JOB_STATE_SUCCEEDED (boolean true), return
False on JOB_STATE_FAILED or JOB_STATE_CANCELLED without downloading,
keep polling otherwise.  The returned number counts the status
queries issued. -/
def submit_and_wait_poll : List String → Option (Bool × Nat)
  | [] => none
  | s :: rest =>
    if s == "JOB_STATE_SUCCEEDED" then some (true, 1)
    else if s == "JOB_STATE_FAILED" || s == "JOB_STATE_CANCELLED" then some (false, 1)
    else (submit_and_wait_poll rest).map (fun p => (p.1, p.2 + 1))

/-- The job object observed by download_and_parse_results: its state
name and the provider side result file name (job.dest.file_name). -/
structure BatchJob where
  state : String
  dest_file : String

/-- Observable effects of the fetch step.  The parse constructor exists
so that the absence of any parsing in download_and_parse_results (the
parse_raw_results call is commented out in the source) is expressible;
the function never emits it. -/
inductive FetchEffect where
  | download (file : String) : FetchEffect
  | write (path : String) (content : List Nat) : FetchEffect
  | parse (content : List Nat) : FetchEffect

/-- TextBatchJob.download_and_parse_results: return immediately unless
the job state is JOB_STATE_SUCCEEDED; otherwise download the result
artifact (provider maps a file name to its bytes) and write the bytes
verbatim to raw_path, returning raw_path.  No parsing is performed. -/
def download_and_parse_results (job : BatchJob) (provider : String → List Nat)
    (raw_path : String) : List FetchEffect × Option String :=
  if job.state ≠ "JOB_STATE_SUCCEEDED" then ([], none)
  else
    ([.download job.dest_file, .write raw_path (provider job.dest_file)],
      some raw_path)

/-!
Concrete inputs used to instantiate the theorems: the three record
scenario of the spec (ids 1, 2, 3; decision mapping sending 1 to 1 and
3 to 0), a record whose verdict is the JSON boolean true, and small
builder inputs.
-/

/-- Input record with id 1 (raw line text abbreviated; the merge phase
copies it opaquely). -/
def line1 : InputLine := ⟨"line1", some (.obj [("id", .str "1")])⟩

/-- Input record with id 2. -/
def line2 : InputLine := ⟨"line2", some (.obj [("id", .str "2")])⟩

/-- Input record with id 3. -/
def line3 : InputLine := ⟨"line3", some (.obj [("id", .str "3")])⟩

/-- The scenario input stream: records 1, 2, 3. -/
def scenario_lines : List InputLine := [line1, line2, line3]

/-- The scenario raw results: one well formed chunk line carrying the
decision mapping sending 1 to 1 and 3 to 0. -/
def scenario_results : List ResultLine :=
  [ResultLine.ok [("1", .int 1), ("3", .int 0)]]

/-- The scenario decision mapping. -/
def scenario_vmap : ValidationMap := buildValidationMap scenario_results

/-- A record with id 7. -/
def line7 : InputLine := ⟨"line7", some (.obj [("id", .str "7")])⟩

/-- Raw results carrying the JSON boolean true as the verdict for id 7. -/
def bool_results : List ResultLine := [ResultLine.ok [("7", .bool true)]]

/-- Decision mapping sending 7 to the JSON boolean true. -/
def bool_vmap : ValidationMap := buildValidationMap bool_results

/-- A complete scenario bundle with the given id, as read by
create_batch_file. -/
def wbundle (n : String) : Json :=
  .obj [("id", .str n),
        ("crop", .obj [("label", .str "Cotton"), ("id", .str "c1")]),
        ("growth_stage", .obj [("label", .str "Sowing")]),
        ("weather", .obj [("label", .str "Dry"), ("id", .str "w1")]),
        ("stress", .obj [("label", .str "Drought"), ("id", .str "s1")])]

/-- Three complete bundle lines for the chunked builder. -/
def wlines4 : List InputLine :=
  [⟨"l1", some (wbundle "1")⟩, ⟨"l2", some (wbundle "2")⟩,
   ⟨"l3", some (wbundle "3")⟩]

/-- The parsed bundles of wlines4. -/
def wbundles4 : List Json := [wbundle "1", wbundle "2", wbundle "3"]

/-- A small one per record builder input: a record with an explicit
bundle_id, a malformed line, and a record without a bundle_id. -/
def wlines5 : List InputLine :=
  [⟨"a", some (.obj [("bundle_id", .str "X")])⟩,
   ⟨"oops", none⟩,
   ⟨"c", some (.obj [("k", .int 5)])⟩]

/-!
Helper lemmas about objects, the merge loop, and the parse phase.
-/

theorem lookupField_map_set (k : String) (v : Json) :
    ∀ fields : List (String × Json), (lookupField fields k).isSome = true →
    lookupField (fields.map (fun p => if p.1 = k then (k, v) else p)) k = some v
  | [], h => by simp [lookupField] at h
  | p :: rest, h => by
    by_cases hp : p.1 = k
    · simp only [List.map_cons, if_pos hp]
      simp [lookupField]
    · simp only [List.map_cons, if_neg hp]
      simp only [lookupField, if_neg hp] at h ⊢
      exact lookupField_map_set k v rest h

theorem lookupField_append_self (k : String) (v : Json) :
    ∀ fields : List (String × Json), lookupField fields k = none →
    lookupField (fields ++ [(k, v)]) k = some v
  | [], _ => by simp [lookupField]
  | p :: rest, h => by
    by_cases hp : p.1 = k
    · simp only [lookupField, if_pos hp] at h
      simp at h
    · simp only [lookupField, if_neg hp] at h
      simp only [List.cons_append, lookupField, if_neg hp]
      exact lookupField_append_self k v rest h

theorem lookupField_setFields_self (fields : List (String × Json)) (k : String)
    (v : Json) : lookupField (setFields fields k v) k = some v := by
  unfold setFields
  by_cases h : (lookupField fields k).isSome
  · rw [if_pos h]; exact lookupField_map_set k v fields h
  · rw [if_neg h]
    apply lookupField_append_self
    cases hl : lookupField fields k
    · rfl
    · rw [hl] at h; simp at h

theorem mergeStep_wf (vmap : ValidationMap) (acc : MergeResult) (l : InputLine)
    (h : mergeWF l = true) :
    mergeStep vmap acc l =
      if accepts vmap l then
        .ok { acc with valid := acc.valid ++ [l.raw],
                       valid_cnt := acc.valid_cnt + 1 }
      else
        .ok { acc with invalid := acc.invalid ++ [taggedBundle vmap l],
                       invalid_cnt := acc.invalid_cnt + 1 } := by
  unfold mergeWF at h
  cases hp : l.parsed with
  | none => rw [hp] at h; simp [Option.bind] at h
  | some b =>
    cases hg : b.get? "id" with
    | none => rw [hp] at h; simp [Option.bind, hg] at h
    | some idv =>
      have hid : lineIdStr l = pyStr idv := by
        simp [lineIdStr, hp, hg]
      rw [mergeStep, hp]
      simp only [hg]
      rw [accepts, hid]
      by_cases ha : pyEqOne ((vmap (pyStr idv)).getD (.int 0))
      · simp [ha]
      · have ha2 : pyEqOne ((vmap (pyStr idv)).getD (.int 0)) = false := by
          cases hb : pyEqOne ((vmap (pyStr idv)).getD (.int 0))
          · rfl
          · exact absurd hb ha
        simp only [ha2, Bool.false_eq_true, if_false]
        simp only [taggedBundle, rejTag, hp, Option.getD_some, hid]

theorem mergeLoop_characterization (vmap : ValidationMap) :
    ∀ (lines : List InputLine), (∀ l ∈ lines, mergeWF l = true) →
    ∀ acc : MergeResult,
    mergeLoop vmap lines acc = .ok
      { valid := acc.valid ++ (lines.filter (accepts vmap)).map InputLine.raw,
        invalid := acc.invalid ++
          ((lines.filter (fun l => ! accepts vmap l)).map (taggedBundle vmap)),
        valid_cnt := acc.valid_cnt + (lines.filter (accepts vmap)).length,
        invalid_cnt := acc.invalid_cnt +
          (lines.filter (fun l => ! accepts vmap l)).length } := by
  intro lines
  induction lines with
  | nil => intro _ acc; simp [mergeLoop]
  | cons l ls ih =>
    intro h acc
    have hl : mergeWF l = true := h l (by simp)
    have hls : ∀ x ∈ ls, mergeWF x = true := fun x hx => h x (by simp [hx])
    rw [mergeLoop, mergeStep_wf vmap acc l hl]
    by_cases ha : accepts vmap l
    · rw [if_pos ha]
      show mergeLoop vmap ls
        { acc with valid := acc.valid ++ [l.raw],
                   valid_cnt := acc.valid_cnt + 1 } = _
      rw [ih hls]
      simp only [List.filter_cons, ha, Bool.not_true, Bool.false_eq_true,
        if_false, if_true, List.map_cons, List.length_cons, Except.ok.injEq,
        MergeResult.mk.injEq, and_true, true_and]
      constructor
      · simp [List.append_assoc]
      · omega
    · rw [if_neg ha]
      show mergeLoop vmap ls
        { acc with invalid := acc.invalid ++ [taggedBundle vmap l],
                   invalid_cnt := acc.invalid_cnt + 1 } = _
      rw [ih hls]
      have ha2 : accepts vmap l = false := by
        cases hb : accepts vmap l
        · rfl
        · exact absurd hb ha
      simp only [List.filter_cons, ha2, Bool.false_eq_true, if_false,
        Bool.not_false, if_true, List.map_cons, List.length_cons,
        Except.ok.injEq, MergeResult.mk.injEq, and_true, true_and]
      constructor
      · simp [List.append_assoc]
      · omega

theorem count_filter_split (f : InputLine → String) (p : InputLine → Bool) :
    ∀ (lines : List InputLine) (s : String),
    ((lines.filter p).map f).count s +
      ((lines.filter (fun l => ! p l)).map f).count s = (lines.map f).count s := by
  intro lines
  induction lines with
  | nil => intro s; simp
  | cons l ls ih =>
    intro s
    cases hp : p l <;>
      simp [List.filter_cons, hp, List.count_cons] <;>
      · rw [← ih s]; omega

theorem foldl_insertItem (q : String) :
    ∀ (items : List (String × Json)) (m : ValidationMap),
    (items.foldl insertItem m) q =
      (lastWins items q).orElse (fun _ => m q) := by
  intro items
  induction items with
  | nil => intro m; simp [lastWins]
  | cons kv rest ih =>
    intro m
    rw [List.foldl_cons, ih]
    unfold lastWins
    rw [List.reverse_cons, List.find?_append]
    cases hf : rest.reverse.find? (fun kv => kv.1 == q) with
    | some kv2 => simp [Option.orElse, hf]
    | none =>
      by_cases hq : kv.1 = q
      · rw [List.find?_cons_of_pos _ (by simp [hq])]
        show (if q = kv.1 then some kv.2 else m q) = some kv.2
        rw [if_pos hq.symm]
      · rw [List.find?_cons_of_neg _ (by simp [hq]), List.find?_nil]
        show (if q = kv.1 then some kv.2 else m q) = m q
        rw [if_neg (fun hc => hq hc.symm)]

theorem foldl_processLine (q : String) :
    ∀ (lines : List ResultLine) (m : ValidationMap),
    (lines.foldl processLine m) q =
      (lastWins (allItems lines) q).orElse (fun _ => m q) := by
  intro lines
  induction lines with
  | nil => intro m; simp [allItems, lastWins]
  | cons rl rest ih =>
    intro m
    rw [List.foldl_cons, ih]
    have hall : allItems (rl :: rest) = okItems rl ++ allItems rest := by
      simp [allItems]
    rw [hall]
    unfold lastWins
    rw [List.reverse_append, List.find?_append]
    cases hf : (allItems rest).reverse.find? (fun kv => kv.1 == q) with
    | some kv2 => simp [Option.orElse, hf]
    | none =>
      simp only [Option.orElse, hf]
      rw [processLine, foldl_insertItem]
      unfold lastWins
      cases hg : (okItems rl).reverse.find? (fun kv => kv.1 == q) with
      | some kv3 => simp [Option.orElse, hg]
      | none => simp [Option.orElse, hg]

/-- The flat decision mapping produced by the parse phase is the last
write wins view of all items unpacked from the well formed result
lines, in file order. -/
theorem buildValidationMap_eq_lastWins (lines : List ResultLine) (q : String) :
    buildValidationMap lines q = lastWins (allItems lines) q := by
  rw [buildValidationMap, foldl_processLine]
  cases hf : lastWins (allItems lines) q with
  | some v => simp [Option.orElse, hf]
  | none => simp [Option.orElse, hf]

theorem objOrSkip_some (l : InputLine) (b : Json) (hp : l.parsed = some b)
    (hl : objOrSkip l = true) : ∃ fields, b = .obj fields := by
  cases b with
  | obj fields => exact ⟨fields, rfl⟩
  | null => simp [objOrSkip, hp] at hl
  | bool x => simp [objOrSkip, hp] at hl
  | int x => simp [objOrSkip, hp] at hl
  | str x => simp [objOrSkip, hp] at hl
  | arr x => simp [objOrSkip, hp] at hl

theorem goodLines_cons (x : InputLine) (xs : List InputLine) (s : Nat) :
    goodLines (x :: xs) s =
      (match x.parsed with
       | some (.obj f) => [(s, f)]
       | _ => []) ++ goodLines xs (s + 1) := by
  cases hxp : x.parsed with
  | none => simp [goodLines, hxp]
  | some b => cases b <;> simp [goodLines, hxp]

theorem create_jsonl_from_spec :
    ∀ (lines : List InputLine), (∀ l ∈ lines, objOrSkip l = true) →
    ∀ (index : Nat),
    create_jsonl_from lines index = .ok
      ((goodLines lines index).map
        (fun p => ⟨derive_custom_id p.2 p.1, .obj p.2⟩),
       (goodLines lines index).length) := by
  intro lines
  induction lines with
  | nil => intro _ index; simp [create_jsonl_from, goodLines]
  | cons l ls ih =>
    intro h index
    have hl := h l (by simp)
    have hls : ∀ x ∈ ls, objOrSkip x = true := fun x hx => h x (by simp [hx])
    cases hp : l.parsed with
    | none =>
      simp only [create_jsonl_from, hp, goodLines]
      exact ih hls (index + 1)
    | some b =>
      obtain ⟨fields, rfl⟩ := objOrSkip_some l b hp hl
      simp only [create_jsonl_from, hp, goodLines]
      rw [ih hls (index + 1)]
      simp

theorem goodLines_mem :
    ∀ (lines : List InputLine) (s i : Nat) (l : InputLine)
      (fields : List (String × Json)),
    lines[i]? = some l → l.parsed = some (.obj fields) →
    (s + i, fields) ∈ goodLines lines s
  | [], s, i, l, fields, hl, _ => by simp at hl
  | x :: xs, s, 0, l, fields, hl, hp => by
    simp at hl
    subst hl
    rw [goodLines_cons, hp]
    simp
  | x :: xs, s, (i+1), l, fields, hl, hp => by
    have hx : xs[i]? = some l := by simpa using hl
    have hmem := goodLines_mem xs (s + 1) i l fields hx hp
    have harith : s + (i + 1) = (s + 1) + i := by omega
    rw [harith, goodLines_cons]
    exact List.mem_append_right _ hmem

theorem goodLines_length :
    ∀ (lines : List InputLine) (s : Nat),
    (goodLines lines s).length = lines.countP isObjLine
  | [], _ => by simp [goodLines]
  | x :: xs, s => by
    rw [goodLines_cons, List.length_append, List.countP_cons,
      goodLines_length xs (s + 1)]
    cases hxp : x.parsed with
    | none => simp [isObjLine, hxp]
    | some b => cases b <;> simp +arith [isObjLine, hxp]

theorem bundle_prompt_item_ok (b : Json) (h : bundleFieldsOK b = true) :
    bundle_prompt_item b = .ok (prompt_item_of b) := by
  simp only [bundleFieldsOK, Bool.and_eq_true] at h
  obtain ⟨⟨⟨⟨⟨⟨⟨h1, h2⟩, h3⟩, h4⟩, h5⟩, h6⟩, h7⟩, h8⟩ := h
  rw [Option.isSome_iff_exists] at h1 h2 h3 h4 h5 h6 h7 h8
  obtain ⟨idv, hid⟩ := h1
  obtain ⟨cl, hcl⟩ := h2
  obtain ⟨ci, hci⟩ := h3
  obtain ⟨gl, hgl⟩ := h4
  obtain ⟨wl, hwl⟩ := h5
  obtain ⟨wi, hwi⟩ := h6
  obtain ⟨sl, hsl⟩ := h7
  obtain ⟨si, hsi⟩ := h8
  rw [Option.bind_eq_some] at hcl hci hgl hwl hwi hsl hsi
  obtain ⟨c1, hc1, hcl⟩ := hcl
  obtain ⟨c2, hc2, hci⟩ := hci
  rw [hc1] at hc2; cases hc2
  obtain ⟨g1, hg1, hgl⟩ := hgl
  obtain ⟨w1, hw1, hwl⟩ := hwl
  obtain ⟨w2, hw2, hwi⟩ := hwi
  rw [hw1] at hw2; cases hw2
  obtain ⟨s1, hs1, hsl⟩ := hsl
  obtain ⟨s2, hs2, hsi⟩ := hsi
  rw [hs1] at hs2; cases hs2
  simp [bundle_prompt_item, getField, prompt_item_of,
    hid, hc1, hcl, hci, hg1, hgl, hw1, hwl, hwi, hs1, hsl, hsi]

theorem promptItems_ok :
    ∀ (chunk : List Json), (∀ b ∈ chunk, bundleFieldsOK b = true) →
    promptItems chunk = .ok (chunk.map prompt_item_of)
  | [], _ => by simp [promptItems]
  | b :: bs, h => by
    rw [promptItems, bundle_prompt_item_ok b (h b (by simp)),
      promptItems_ok bs (fun x hx => h x (List.mem_cons_of_mem _ hx))]
    simp

theorem chunk_entries_eq (cpred : Nat) :
    ∀ (bundles : List Json) (i : Nat),
    (∀ b ∈ bundles, bundleFieldsOK b = true) →
    chunk_entries cpred bundles i = .ok (chunk_entries_spec cpred bundles i)
  | [], i, _ => by simp [chunk_entries, chunk_entries_spec]
  | b :: bs, i, h => by
    have hchunk : ∀ x ∈ b :: bs.take cpred, bundleFieldsOK x = true := by
      intro x hx
      rcases List.mem_cons.mp hx with rfl | hx2
      · exact h x (by simp)
      · exact h x (List.mem_cons_of_mem _ (List.mem_of_mem_take hx2))
    have hrest : ∀ x ∈ bs.drop cpred, bundleFieldsOK x = true := fun x hx =>
      h x (List.mem_cons_of_mem _ (List.mem_of_mem_drop hx))
    rw [chunk_entries, chunk_entries_spec]
    rw [promptItems_ok _ hchunk,
      chunk_entries_eq cpred (bs.drop cpred) (i + cpred + 1) hrest]
  termination_by bundles _ _ => bundles.length
  decreasing_by simp +arith [List.length_drop]

theorem chunk_entries_spec_length (cpred : Nat) :
    ∀ (bundles : List Json) (i : Nat),
    (chunk_entries_spec cpred bundles i).length =
      (bundles.length + cpred) / (cpred + 1)
  | [], i => by
    simp [chunk_entries_spec, Nat.div_eq_of_lt (Nat.lt_succ_self cpred)]
  | b :: bs, i => by
    rw [chunk_entries_spec]
    simp only [List.length_cons]
    rw [chunk_entries_spec_length cpred (bs.drop cpred) (i + cpred + 1)]
    rw [List.length_drop]
    have hr : bs.length + 1 + cpred = bs.length + (cpred + 1) := by omega
    rw [hr, Nat.add_div_right _ (Nat.succ_pos cpred)]
    rcases le_or_lt cpred bs.length with hle | hlt
    · rw [Nat.sub_add_cancel hle]
    · rw [Nat.sub_eq_zero_of_le (Nat.le_of_lt hlt), Nat.zero_add,
        Nat.div_eq_of_lt (Nat.lt_succ_self cpred),
        Nat.div_eq_of_lt (Nat.lt_succ_of_lt hlt)]
  termination_by bundles _ => bundles.length
  decreasing_by simp +arith [List.length_drop]

theorem chunk_entries_spec_getElem (cpred : Nat) :
    ∀ (k : Nat) (bundles : List Json) (i : Nat),
    k < (chunk_entries_spec cpred bundles i).length →
    (chunk_entries_spec cpred bundles i)[k]? =
      some ⟨"chunk_" ++ toString (i + (cpred + 1) * k),
        ((bundles.drop ((cpred + 1) * k)).take (cpred + 1)).map prompt_item_of⟩ := by
  intro k
  induction k with
  | zero =>
    intro bundles i hk
    cases bundles with
    | nil => simp [chunk_entries_spec] at hk
    | cons b bs =>
      rw [chunk_entries_spec]
      simp only [List.getElem?_cons_zero, Nat.mul_zero, Nat.add_zero,
        List.drop_zero]
      rw [List.take_succ_cons]
  | succ n ih =>
    intro bundles i hk
    cases bundles with
    | nil => simp [chunk_entries_spec] at hk
    | cons b bs =>
      rw [chunk_entries_spec] at hk ⊢
      simp only [List.getElem?_cons_succ, List.length_cons] at hk ⊢
      rw [ih (bs.drop cpred) (i + cpred + 1) (by omega)]
      have h1 : i + cpred + 1 + (cpred + 1) * n = i + (cpred + 1) * (n + 1) := by
        ring
      have h2 : (cpred + 1) * (n + 1) = ((cpred + 1) * n + cpred) + 1 := by
        ring
      rw [h1, List.drop_drop, h2, List.drop_succ_cons]
      have h3 : (cpred + 1) * n + cpred = cpred + (cpred + 1) * n := by omega
      rw [h3]

/-- For a well formed input line, reading validation_status off the
tagged rejected object yields exactly the tag chosen by the merge
phase. -/
theorem taggedBundle_status (vmap : ValidationMap) (l : InputLine)
    (hwf : mergeWF l = true) :
    Json.get? (taggedBundle vmap l) "validation_status" =
      some (.str (rejTag vmap l)) := by
  unfold mergeWF at hwf
  cases hp : l.parsed with
  | none => rw [hp] at hwf; simp at hwf
  | some b =>
    rw [hp] at hwf
    simp only [Option.some_bind] at hwf
    cases b with
    | obj fields =>
      simp [taggedBundle, hp, Json.get?, Json.setField,
        lookupField_setFields_self]
    | null => simp [Json.get?] at hwf
    | bool x => simp [Json.get?] at hwf
    | int x => simp [Json.get?] at hwf
    | str x => simp [Json.get?] at hwf
    | arr x => simp [Json.get?] at hwf

/-- Accepted records are exactly those lines whose filter test passes;
lines of equal record id share the test. -/
theorem accepts_eq_of_idStr (vmap : ValidationMap) (x l : InputLine)
    (h : lineIdStr x = lineIdStr l) : accepts vmap x = accepts vmap l := by
  rw [accepts, accepts, h]

/-!
The claims.
-/

/-- Claim C2: for every input stream of well formed records and every
decision mapping, the merge phase partitions the input exactly: the two
output streams are the accepted and rejected filters of the input,
accepted count plus rejected count equals the input length, the record
id multiplicities split across the two streams, and under the data
model invariant of unique record ids every id lands in exactly one
output stream. -/
theorem claim2_merge_partitions_input (vmap : ValidationMap)
    (lines : List InputLine) (hwf : ∀ l ∈ lines, mergeWF l = true) :
    mergeLoop vmap lines ⟨[], [], 0, 0⟩ = .ok
      { valid := (lines.filter (accepts vmap)).map InputLine.raw,
        invalid := (lines.filter (fun l => ! accepts vmap l)).map
          (taggedBundle vmap),
        valid_cnt := (lines.filter (accepts vmap)).length,
        invalid_cnt := (lines.filter (fun l => ! accepts vmap l)).length }
    ∧ (lines.filter (accepts vmap)).length +
        (lines.filter (fun l => ! accepts vmap l)).length = lines.length
    ∧ (∀ s : String, ((lines.filter (accepts vmap)).map lineIdStr).count s +
        ((lines.filter (fun l => ! accepts vmap l)).map lineIdStr).count s
        = (lines.map lineIdStr).count s)
    ∧ ((lines.map lineIdStr).Nodup → ∀ s ∈ lines.map lineIdStr,
        ((lines.filter (accepts vmap)).map lineIdStr).count s +
        ((lines.filter (fun l => ! accepts vmap l)).map lineIdStr).count s
        = 1) := by
  refine ⟨?_, ?_, ?_, ?_⟩
  · have hchar := mergeLoop_characterization vmap lines hwf ⟨[], [], 0, 0⟩
    simpa using hchar
  · have hlen : ∀ ls : List InputLine,
        (ls.filter (accepts vmap)).length +
          (ls.filter (fun l => ! accepts vmap l)).length = ls.length := by
      intro ls
      induction ls with
      | nil => simp
      | cons x xs ih =>
        by_cases hx : accepts vmap x <;>
          simp [List.filter_cons, hx] <;> omega
    exact hlen lines
  · exact count_filter_split lineIdStr (accepts vmap) lines
  · intro hnd s hs
    rw [count_filter_split lineIdStr (accepts vmap) lines s]
    exact List.count_eq_one_of_mem hnd hs

/-- Claim C2 witness: the three record scenario has well formed lines
and its accepted plus rejected counts equal 3. -/
theorem claim2_witness :
    (∀ l ∈ scenario_lines, mergeWF l = true) ∧
    (scenario_lines.filter (accepts scenario_vmap)).length +
      (scenario_lines.filter (fun l => ! accepts scenario_vmap l)).length
      = scenario_lines.length :=
  ⟨by decide,
   (claim2_merge_partitions_input scenario_vmap scenario_lines (by decide)).2.1⟩

/-- Claim C1 counterexample: on the scenario of the claim (ids 1, 2, 3;
decisions 1 to accept, 3 to reject), record 2 is rejected with
validation_status LLM_MISSED and record 3 with LLM_REJECTED; the tags
MISSING_DECISION and REJECTED_BY_MODEL stated by the claim do not
appear. -/
theorem claim1_counterexample :
    parse_and_split scenario_results scenario_lines = .ok
      { valid := ["line1"],
        invalid := [.obj [("id", .str "2"), ("validation_status", .str "LLM_MISSED")],
                    .obj [("id", .str "3"), ("validation_status", .str "LLM_REJECTED")]],
        valid_cnt := 1, invalid_cnt := 2 }
    ∧ "LLM_MISSED" ≠ "MISSING_DECISION"
    ∧ "LLM_REJECTED" ≠ "REJECTED_BY_MODEL" :=
  ⟨rfl, by decide, by decide⟩

/-- Claim C1 (amended): a record whose id is absent from the decision
mapping is routed to the rejected stream tagged
validation_status = LLM_MISSED (the source tag; the spec calls it
MISSING_DECISION) and its id never appears among the accepted records;
in the scenario, record 2 is rejected as LLM_MISSED and record 3 as
LLM_REJECTED (spec name REJECTED_BY_MODEL). -/
theorem claim1_missing_id_rejected (vmap : ValidationMap)
    (lines : List InputLine) (hwf : ∀ l ∈ lines, mergeWF l = true)
    (l : InputLine) (hl : l ∈ lines)
    (habs : vmap (lineIdStr l) = none) :
    mergeLoop vmap lines ⟨[], [], 0, 0⟩ = .ok
      { valid := (lines.filter (accepts vmap)).map InputLine.raw,
        invalid := (lines.filter (fun l => ! accepts vmap l)).map
          (taggedBundle vmap),
        valid_cnt := (lines.filter (accepts vmap)).length,
        invalid_cnt := (lines.filter (fun l => ! accepts vmap l)).length }
    ∧ accepts vmap l = false
    ∧ taggedBundle vmap l ∈
        (lines.filter (fun x => ! accepts vmap x)).map (taggedBundle vmap)
    ∧ Json.get? (taggedBundle vmap l) "validation_status" =
        some (.str "LLM_MISSED")
    ∧ lineIdStr l ∉ (lines.filter (accepts vmap)).map lineIdStr := by
  have hacc : accepts vmap l = false := by
    simp [accepts, habs, pyEqOne]
  refine ⟨?_, hacc, ?_, ?_, ?_⟩
  · have hchar := mergeLoop_characterization vmap lines hwf ⟨[], [], 0, 0⟩
    simpa using hchar
  · exact List.mem_map_of_mem _ (List.mem_filter.mpr ⟨hl, by simp [hacc]⟩)
  · rw [taggedBundle_status vmap l (hwf l hl)]
    simp [rejTag, habs]
  · intro hmem
    obtain ⟨x, hxmem, hxeq⟩ := List.mem_map.mp hmem
    have hxacc : accepts vmap x = true := (List.mem_filter.mp hxmem).2
    rw [accepts_eq_of_idStr vmap x l hxeq, hacc] at hxacc
    exact Bool.false_ne_true hxacc

/-- Claim C1 witness: instantiated at record 2 of the scenario. -/
theorem claim1_witness :
    (∀ l ∈ scenario_lines, mergeWF l = true) ∧
    scenario_vmap (lineIdStr line2) = none ∧
    line2 ∈ scenario_lines ∧
    Json.get? (taggedBundle scenario_vmap line2) "validation_status" =
      some (.str "LLM_MISSED") :=
  ⟨by decide, rfl, by simp [scenario_lines],
   (claim1_missing_id_rejected scenario_vmap scenario_lines (by decide)
     line2 (by simp [scenario_lines]) rfl).2.2.2.1⟩

/-- Claim C3: a record whose id has the accept verdict (the integer 1)
in the decision mapping is routed to the accepted stream verbatim: the
accepted stream holds the raw input lines themselves, so the output
line equals the input line, and the payload is never mutated. -/
theorem claim3_accepted_verbatim (vmap : ValidationMap)
    (lines : List InputLine) (hwf : ∀ l ∈ lines, mergeWF l = true)
    (l : InputLine) (hl : l ∈ lines)
    (hv : vmap (lineIdStr l) = some (.int 1)) :
    mergeLoop vmap lines ⟨[], [], 0, 0⟩ = .ok
      { valid := (lines.filter (accepts vmap)).map InputLine.raw,
        invalid := (lines.filter (fun l => ! accepts vmap l)).map
          (taggedBundle vmap),
        valid_cnt := (lines.filter (accepts vmap)).length,
        invalid_cnt := (lines.filter (fun l => ! accepts vmap l)).length }
    ∧ accepts vmap l = true
    ∧ l.raw ∈ (lines.filter (accepts vmap)).map InputLine.raw
    ∧ ∀ s ∈ (lines.filter (accepts vmap)).map InputLine.raw,
        s ∈ lines.map InputLine.raw := by
  have hacc : accepts vmap l = true := by
    simp [accepts, hv, pyEqOne]
  refine ⟨?_, hacc, ?_, ?_⟩
  · have hchar := mergeLoop_characterization vmap lines hwf ⟨[], [], 0, 0⟩
    simpa using hchar
  · exact List.mem_map_of_mem _ (List.mem_filter.mpr ⟨hl, hacc⟩)
  · intro s hs
    obtain ⟨x, hxmem, hxeq⟩ := List.mem_map.mp hs
    exact hxeq ▸ List.mem_map_of_mem _ (List.mem_filter.mp hxmem).1

/-- Claim C3 witness: record 1 of the scenario is accepted verbatim. -/
theorem claim3_witness :
    (∀ l ∈ scenario_lines, mergeWF l = true) ∧
    scenario_vmap (lineIdStr line1) = some (.int 1) ∧
    line1.raw ∈ (scenario_lines.filter (accepts scenario_vmap)).map
      InputLine.raw :=
  ⟨by decide, rfl,
   (claim3_accepted_verbatim scenario_vmap scenario_lines (by decide)
     line1 (by simp [scenario_lines]) rfl).2.2.1⟩

/-- Claim C10 counterexample: a verdict that is the JSON boolean true
(not the integer 1) still routes the record to the accepted stream,
because the source test is Python equality is_valid == 1 and
True == 1 holds in Python. -/
theorem claim10_counterexample :
    parse_and_split bool_results [line7] = .ok
      { valid := ["line7"], invalid := [], valid_cnt := 1, invalid_cnt := 0 }
    ∧ bool_vmap "7" = some (.bool true)
    ∧ (Json.bool true = Json.int 1 → False) :=
  ⟨rfl, rfl, fun h => Json.noConfusion h⟩

/-- Claim C10 (amended): a record is accepted exactly when its stored
verdict compares equal to 1 under Python equality, that is when it is
the integer 1 or the boolean true (floats are outside the model; the
Python float 1.0 would likewise pass); every other present verdict -
0, a string, null, a list, an object - routes the record to the
rejected stream tagged LLM_REJECTED. -/
theorem claim10_accept_iff_python_eq_one (vmap : ValidationMap)
    (lines : List InputLine) (hwf : ∀ l ∈ lines, mergeWF l = true) :
    mergeLoop vmap lines ⟨[], [], 0, 0⟩ = .ok
      { valid := (lines.filter (accepts vmap)).map InputLine.raw,
        invalid := (lines.filter (fun l => ! accepts vmap l)).map
          (taggedBundle vmap),
        valid_cnt := (lines.filter (accepts vmap)).length,
        invalid_cnt := (lines.filter (fun l => ! accepts vmap l)).length }
    ∧ (∀ v : Json, pyEqOne v = true ↔ (v = .int 1 ∨ v = .bool true))
    ∧ (∀ l ∈ lines, accepts vmap l = true ↔
        (vmap (lineIdStr l) = some (.int 1) ∨
         vmap (lineIdStr l) = some (.bool true)))
    ∧ (∀ l ∈ lines, accepts vmap l = false →
        taggedBundle vmap l ∈
          (lines.filter (fun x => ! accepts vmap x)).map (taggedBundle vmap)
        ∧ ((vmap (lineIdStr l)).isSome = true →
            rejTag vmap l = "LLM_REJECTED")) := by
  refine ⟨?_, ?_, ?_, ?_⟩
  · have hchar := mergeLoop_characterization vmap lines hwf ⟨[], [], 0, 0⟩
    simpa using hchar
  · intro v
    cases v <;> simp [pyEqOne]
  · intro l _
    rw [accepts]
    cases hv : vmap (lineIdStr l) with
    | none => simp [pyEqOne]
    | some v => cases v <;> simp [pyEqOne]
  · intro l hl hacc
    refine ⟨List.mem_map_of_mem _ (List.mem_filter.mpr ⟨hl, by simp [hacc]⟩), ?_⟩
    intro hsome
    obtain ⟨v, hv⟩ := Option.isSome_iff_exists.mp hsome
    simp [rejTag, hv]

/-- Claim C10 witness: the boolean true verdict scenario. -/
theorem claim10_witness :
    (∀ l ∈ [line7], mergeWF l = true) ∧
    (accepts bool_vmap line7 = true ↔
      (bool_vmap (lineIdStr line7) = some (.int 1) ∨
       bool_vmap (lineIdStr line7) = some (.bool true))) :=
  ⟨by decide,
   (claim10_accept_iff_python_eq_one bool_vmap [line7] (by decide)).2.2.1
     line7 (by simp)⟩

/-- Claim C6: a malformed raw result line (one that fails to parse or
lacks the expected nested fields) is skipped by the parse phase: it
leaves the decision mapping built from the other lines unchanged, and
hence the final outcome of parse_and_split for every record is
unchanged. -/
theorem claim6_malformed_result_line_skipped (pre post : List ResultLine)
    (lines : List InputLine) :
    buildValidationMap (pre ++ ResultLine.malformed :: post) =
      buildValidationMap (pre ++ post)
    ∧ parse_and_split (pre ++ ResultLine.malformed :: post) lines =
        parse_and_split (pre ++ post) lines := by
  have h : buildValidationMap (pre ++ ResultLine.malformed :: post) =
      buildValidationMap (pre ++ post) := by
    unfold buildValidationMap
    rw [List.foldl_append, List.foldl_append, List.foldl_cons]
    rfl
  exact ⟨h, by rw [parse_and_split, parse_and_split, h]⟩

/-- Claim C5: in one per record mode, the entry built for the parseable
record at 0 based line position i carries correlation id
bundle.get(bundle_id) when that key is present and the positional
fallback req_<i> otherwise, and the derivation is deterministic: any
two runs on the same input produce identical correlation id lists. -/
theorem claim5_one_per_record_ids (lines : List InputLine)
    (hwb : ∀ l ∈ lines, objOrSkip l = true) (i : Nat) (l : InputLine)
    (fields : List (String × Json)) (hl : lines[i]? = some l)
    (hp : l.parsed = some (.obj fields)) :
    create_jsonl lines = .ok
      ((goodLines lines 0).map
        (fun p => ⟨derive_custom_id p.2 p.1, .obj p.2⟩),
       (goodLines lines 0).length)
    ∧ (⟨(lookupField fields "bundle_id").getD
          (.str ("req_" ++ toString i)), .obj fields⟩ : RequestEntry)
        ∈ (goodLines lines 0).map
            (fun p => (⟨derive_custom_id p.2 p.1, .obj p.2⟩ : RequestEntry))
    ∧ (∀ es n es2 n2, create_jsonl lines = .ok (es, n) →
        create_jsonl lines = .ok (es2, n2) →
        es.map RequestEntry.custom_id = es2.map RequestEntry.custom_id) := by
  have hspec := create_jsonl_from_spec lines hwb 0
  refine ⟨hspec, ?_, ?_⟩
  · have hmem := goodLines_mem lines 0 i l fields hl hp
    rw [Nat.zero_add] at hmem
    exact List.mem_map_of_mem _ hmem
  · intro es n es2 n2 h1 h2
    rw [h1] at h2
    cases h2
    rfl

/-- Claim C5 witness: the record at line position 2 (after a record
with an explicit bundle_id and a malformed line) receives the
positional fallback req_2. -/
theorem claim5_witness :
    (∀ l ∈ wlines5, objOrSkip l = true) ∧
    wlines5[2]? = some ⟨"c", some (.obj [("k", .int 5)])⟩ ∧
    (⟨.str "req_2", .obj [("k", .int 5)]⟩ : RequestEntry)
      ∈ (goodLines wlines5 0).map
          (fun p => (⟨derive_custom_id p.2 p.1, .obj p.2⟩ : RequestEntry)) :=
  ⟨by decide, rfl,
   (claim5_one_per_record_ids wlines5 (by decide) 2
     ⟨"c", some (.obj [("k", .int 5)])⟩ [("k", .int 5)] rfl rfl).2.1⟩

/-- Claim C7 counterexample: the chunked request builder
(BatchValidator.create_batch_file) aborts the whole pass on the first
malformed non blank input line: json.loads is not guarded there, so a
malformed line is fatal rather than skipped. -/
theorem claim7_counterexample :
    create_batch_file 50 [⟨"not json", none⟩] =
      .error "json.loads raised JSONDecodeError" := rfl

/-- Claim C7 (amended): in the one per record builder
(TextBatchJob.create_jsonl) a malformed input line is skipped and the
pass continues, one request entry is emitted per well formed (JSON
object) line, and the reported count equals the number of well formed
lines; the chunked builder (BatchValidator.create_batch_file) instead
aborts on the first malformed non blank line. -/
theorem claim7_builder_skips_malformed (lines : List InputLine)
    (hwb : ∀ l ∈ lines, objOrSkip l = true) :
    create_jsonl lines = .ok
      ((goodLines lines 0).map
        (fun p => ⟨derive_custom_id p.2 p.1, .obj p.2⟩),
       (goodLines lines 0).length)
    ∧ ((goodLines lines 0).map
        (fun p => (⟨derive_custom_id p.2 p.1, .obj p.2⟩ : RequestEntry))).length
      = lines.countP isObjLine
    ∧ (goodLines lines 0).length = lines.countP isObjLine := by
  refine ⟨create_jsonl_from_spec lines hwb 0, ?_, goodLines_length lines 0⟩
  rw [List.length_map]
  exact goodLines_length lines 0

/-- Claim C7 witness: a two line input with one malformed line yields
one request entry and a reported count of one. -/
theorem claim7_witness :
    (∀ l ∈ [(⟨"oops", none⟩ : InputLine), ⟨"b", some (.obj [])⟩],
      objOrSkip l = true) ∧
    (goodLines [(⟨"oops", none⟩ : InputLine), ⟨"b", some (.obj [])⟩] 0).length
      = [(⟨"oops", none⟩ : InputLine), ⟨"b", some (.obj [])⟩].countP isObjLine :=
  ⟨by decide,
   (claim7_builder_skips_malformed
     [(⟨"oops", none⟩ : InputLine), ⟨"b", some (.obj [])⟩] (by decide)).2.2⟩

/-- Claim C4: with chunk size N the builder groups the input records in
order into consecutive chunks of at most N records, emits exactly one
request entry per chunk, the correlation id of the k-th chunk is the
chunk tracking string chunk_<N*k> derived from the chunk position (not
from any record id), and the parse phase unpacks every chunk level
payload (a mapping of string sub ids to verdicts) into the flat
decision mapping under last write wins. -/
theorem claim4_chunked_builder_and_unpack (c : Nat) (hc : 0 < c)
    (lines : List InputLine) (bundles : List Json)
    (hread : read_bundles lines = .ok bundles)
    (hwf : ∀ b ∈ bundles, bundleFieldsOK b = true) :
    create_batch_file c lines = .ok (chunk_entries_spec (c - 1) bundles 0)
    ∧ (chunk_entries_spec (c - 1) bundles 0).length =
        (bundles.length + (c - 1)) / c
    ∧ (∀ k, k < (chunk_entries_spec (c - 1) bundles 0).length →
        (chunk_entries_spec (c - 1) bundles 0)[k]? =
          some ⟨"chunk_" ++ toString (c * k),
            ((bundles.drop (c * k)).take c).map prompt_item_of⟩)
    ∧ (∀ rlines q, buildValidationMap rlines q = lastWins (allItems rlines) q) := by
  have hc1 : c - 1 + 1 = c := Nat.succ_pred_eq_of_pos hc
  refine ⟨?_, ?_, ?_, fun rlines q => buildValidationMap_eq_lastWins rlines q⟩
  · rw [create_batch_file, if_neg (by omega)]
    rw [hread]
    exact chunk_entries_eq (c - 1) bundles 0 hwf
  · rw [chunk_entries_spec_length (c - 1) bundles 0, hc1]
  · intro k hk
    have hg := chunk_entries_spec_getElem (c - 1) k bundles 0 hk
    rw [hc1, Nat.zero_add] at hg
    exact hg

/-- Claim C4 witness: chunk size 2 over three complete bundles yields
two chunks with correlation ids chunk_0 and chunk_2. -/
theorem claim4_witness :
    0 < 2 ∧ read_bundles wlines4 = .ok wbundles4 ∧
    (∀ b ∈ wbundles4, bundleFieldsOK b = true) ∧
    create_batch_file 2 wlines4 = .ok (chunk_entries_spec 1 wbundles4 0) :=
  ⟨by decide, rfl, by decide,
   (claim4_chunked_builder_and_unpack 2 (by decide) wlines4 wbundles4
     rfl (by decide)).1⟩

/-- Claim C8: both poll loops query the job state once per iteration
and stop exactly at the first terminal state observed: for a state
sequence whose k - 1 first elements are non terminal and whose k-th
element is terminal, exactly k status queries are issued and no query
happens after the terminal observation; on SUCCEEDED the validator
loop proceeds to the result download (true), on FAILED or CANCELLED it
returns False without downloading. -/
theorem claim8_poller_stops_at_first_terminal (pre post : List String)
    (s : String) (hpre : ∀ t ∈ pre, is_terminal_state t = false)
    (hs : is_terminal_state s = true) :
    wait_for_completion (pre ++ s :: post) = some (s, pre.length + 1)
    ∧ (s = "JOB_STATE_SUCCEEDED" →
        submit_and_wait_poll (pre ++ s :: post) = some (true, pre.length + 1))
    ∧ ((s = "JOB_STATE_FAILED" ∨ s = "JOB_STATE_CANCELLED") →
        submit_and_wait_poll (pre ++ s :: post) = some (false, pre.length + 1)) := by
  induction pre with
  | nil =>
    refine ⟨?_, ?_, ?_⟩
    · simp [wait_for_completion, hs]
    · intro h
      subst h
      simp [submit_and_wait_poll]
    · intro h
      rcases h with h | h <;> subst h <;> simp [submit_and_wait_poll]
  | cons t pre ih =>
    have ht := hpre t (by simp)
    have hpre2 : ∀ x ∈ pre, is_terminal_state x = false := fun x hx =>
      hpre x (by simp [hx])
    obtain ⟨ih1, ih2, ih3⟩ := ih hpre2
    simp only [is_terminal_state, Bool.or_eq_false_iff] at ht
    have htS := ht.1.1
    have htF := ht.1.2
    have htC := ht.2
    refine ⟨?_, ?_, ?_⟩
    · rw [List.cons_append, wait_for_completion]
      rw [if_neg (by simp [is_terminal_state, htS, htF, htC])]
      rw [ih1]
      simp
    · intro h
      rw [List.cons_append, submit_and_wait_poll]
      rw [if_neg (by simp [htS]), if_neg (by simp [htF, htC])]
      rw [ih2 h]
      simp
    · intro h
      rw [List.cons_append, submit_and_wait_poll]
      rw [if_neg (by simp [htS]), if_neg (by simp [htF, htC])]
      rw [ih3 h]
      simp

/-- Claim C8 witness: the state sequence PENDING, RUNNING, RUNNING,
SUCCEEDED takes exactly 4 status queries and proceeds to fetch. -/
theorem claim8_witness :
    (∀ t ∈ ["JOB_STATE_PENDING", "JOB_STATE_RUNNING", "JOB_STATE_RUNNING"],
      is_terminal_state t = false) ∧
    is_terminal_state "JOB_STATE_SUCCEEDED" = true ∧
    wait_for_completion ["JOB_STATE_PENDING", "JOB_STATE_RUNNING",
      "JOB_STATE_RUNNING", "JOB_STATE_SUCCEEDED"] =
      some ("JOB_STATE_SUCCEEDED", 4) ∧
    submit_and_wait_poll ["JOB_STATE_PENDING", "JOB_STATE_RUNNING",
      "JOB_STATE_RUNNING", "JOB_STATE_SUCCEEDED"] = some (true, 4) :=
  ⟨by decide, by decide,
   (claim8_poller_stops_at_first_terminal
     ["JOB_STATE_PENDING", "JOB_STATE_RUNNING", "JOB_STATE_RUNNING"] []
     "JOB_STATE_SUCCEEDED" (by decide) (by decide)).1,
   (claim8_poller_stops_at_first_terminal
     ["JOB_STATE_PENDING", "JOB_STATE_RUNNING", "JOB_STATE_RUNNING"] []
     "JOB_STATE_SUCCEEDED" (by decide) (by decide)).2.1 rfl⟩

/-- Claim C9: the result fetcher downloads only when the job state is
JOB_STATE_SUCCEEDED - in every other state it returns with no effect
and no result path - and when it does fetch it writes the downloaded
bytes verbatim to the raw output location; no parse effect is ever
emitted (parsing is left to the reconciler), so the raw artifact is
persisted before any parsing regardless of whether parsing would
succeed. -/
theorem claim9_fetch_only_when_succeeded (job : BatchJob)
    (provider : String → List Nat) (raw_path : String) :
    (job.state ≠ "JOB_STATE_SUCCEEDED" →
      download_and_parse_results job provider raw_path = ([], none))
    ∧ (job.state = "JOB_STATE_SUCCEEDED" →
      download_and_parse_results job provider raw_path =
        ([.download job.dest_file,
          .write raw_path (provider job.dest_file)], some raw_path))
    ∧ (∀ content, FetchEffect.parse content ∉
        (download_and_parse_results job provider raw_path).1) := by
  by_cases h : job.state = "JOB_STATE_SUCCEEDED" <;>
    simp [download_and_parse_results, h]

/-- Claim C9 witness: a succeeded job is fetched and persisted
verbatim; a failed job is not fetched. -/
theorem claim9_witness :
    download_and_parse_results ⟨"JOB_STATE_SUCCEEDED", "files/res"⟩
      (fun _ => [1, 2, 3]) "raw_results.jsonl" =
      ([.download "files/res", .write "raw_results.jsonl" [1, 2, 3]],
        some "raw_results.jsonl")
    ∧ download_and_parse_results ⟨"JOB_STATE_FAILED", "files/res"⟩
      (fun _ => [1, 2, 3]) "raw_results.jsonl" = ([], none) :=
  ⟨(claim9_fetch_only_when_succeeded ⟨"JOB_STATE_SUCCEEDED", "files/res"⟩
      (fun _ => [1, 2, 3]) "raw_results.jsonl").2.1 rfl,
   (claim9_fetch_only_when_succeeded ⟨"JOB_STATE_FAILED", "files/res"⟩
      (fun _ => [1, 2, 3]) "raw_results.jsonl").1 (by decide)⟩

end AgriBatch
